import Mathlib

/-!
Shallow embedding of the fframework deferred-evaluation expression algebra
(`src/fframework/function.py` and `src/fframework/op.py`).

Python objects are modelled by the inductive type `Obj`; the Function node
classes of the repository are modelled by the mutually inductive type `Fn`.
Evaluation (`Function.__call__`) is modelled by `call`, which returns either a
raised exception (`Err`) or a produced value together with the post-call state
of the node tree: under Python 3, `_List`, `_Tuple` and `_Dict` hold the result
of `map(asfunction, ...)`, a one-shot iterator, so invoking such a node
consumes internal state; the returned `Fn` records that consumption.

Numeric values are modelled by `Int` (Python `bool` participates in
arithmetic as 0/1, as in Python); the floating-point results appearing in
the verified properties are exact integers, and `math.sqrt`/`numpy.sqrt` are
modelled exactly on perfect squares of nonnegative integers (the properties
evaluate square roots only at 4).  The module-level flag `numpy_available`
is passed to `call` as the boolean parameter `np`.
-/

namespace FF

/-- Python exception kinds that the embedded fragment can raise. -/
inductive Err where
  | typeError
  | valueError
deriving DecidableEq

mutual

/-- A Python object of the fragment manipulated by the repository:
integers, booleans, strings, lists, tuples, dicts, and Function objects. -/
inductive Obj where
  | int : Int → Obj
  | bool : Bool → Obj
  | str : String → Obj
  | list : List Obj → Obj
  | tuple : List Obj → Obj
  | dict : List (Obj × Obj) → Obj
  | fn : Fn → Obj

/-- The Function node classes of the repository that the verified properties
exercise.  `Constant` and `Identity` are the plain classes of `function.py`;
all remaining constructors embed `OpFunction` subclasses of `op.py`.
`List_`, `Tuple_` and `Dict_` embed `_List`, `_Tuple` and `_Dict`: they store
the raw objects handed to `map(asfunction, ...)` (the map is lazy, so the
elements are kept unconverted) together with a flag recording whether the
one-shot map iterator has already been consumed by a previous `__call__`.
`Sqrt` is an `Apply` subclass and stores the extra positional and keyword
parameters given at construction; `Neg` overrides `__init__` to accept no
parameters, so its stored parameter lists are always empty and are omitted. -/
inductive Fn where
  | Constant : Obj → Fn
  | Identity : Fn
  | OpConstant : Obj → Fn
  | ComposedFunction : Fn → Fn → Fn
  | List_ : List Obj → Bool → Fn
  | Tuple_ : List Obj → Bool → Fn
  | Dict_ : List Obj → List Obj → Bool → Fn
  | Sum : Fn → Fn → Fn
  | InBetween : Fn → Fn → Fn → Fn
  | Clip : Fn → Fn → Fn → Fn
  | Neg : Fn
  | Sqrt : List Obj → List (String × Obj) → Fn

end

/-- `isinstance(f, OpFunction)`: every node class defined in `op.py` derives
from `OpFunction`; only `Constant` and `Identity` of `function.py` do not.
`OpFunction` overrides `__eq__` (to build `Equal` nodes) without defining
`__hash__`, so under Python 3 instances of `OpFunction` subclasses are
unhashable. -/
def isOpFunction : Fn → Bool
  | .Constant _ => false
  | .Identity => false
  | _ => true

/-- `function.asfunction`: a `Function` is returned unchanged (the same
reference); any other object is wrapped as a `Constant`. -/
def asfunction : Obj → Fn
  | .fn f => f
  | v => .Constant v

/-- Python number coercion for arithmetic and comparisons: `bool` is an
`int` subclass with `True == 1` and `False == 0`. -/
def asNum : Obj → Option Int
  | .int n => some n
  | .bool b => some (if b then 1 else 0)
  | _ => none

/-- Python `+` on the embedded fragment: numeric addition, string, list and
tuple concatenation; anything else raises `TypeError`. -/
def objAdd (a b : Obj) : Except Err Obj :=
  match asNum a, asNum b with
  | some m, some n => .ok (.int (m + n))
  | _, _ =>
    match a, b with
    | .str s, .str t => .ok (.str (s ++ t))
    | .list xs, .list ys => .ok (.list (xs ++ ys))
    | .tuple xs, .tuple ys => .ok (.tuple (xs ++ ys))
    | _, _ => .error .typeError

/-- Python unary `-` on the embedded fragment: numeric negation only. -/
def objNeg (a : Obj) : Except Err Obj :=
  match asNum a with
  | some n => .ok (.int (-n))
  | none => .error .typeError

/-- Python `<` on the embedded fragment: numbers and strings. -/
def pyLt (a b : Obj) : Except Err Bool :=
  match asNum a, asNum b with
  | some m, some n => .ok (decide (m < n))
  | _, _ =>
    match a, b with
    | .str s, .str t => .ok (decide (s < t))
    | _, _ => .error .typeError

/-- Python `<=` on the embedded fragment: numbers and strings. -/
def pyLe (a b : Obj) : Except Err Bool :=
  match asNum a, asNum b with
  | some m, some n => .ok (decide (m ≤ n))
  | _, _ =>
    match a, b with
    | .str s, .str t => .ok (decide (s < t ∨ s = t))
    | _, _ => .error .typeError

/-- `math.sqrt` / `numpy.sqrt` on the embedded (integer-valued) fragment:
raises on a negative radicand (`math domain error`), and is modelled exactly
on perfect squares; the verified properties evaluate it only at 4. -/
def sqrtInt (x : Obj) : Except Err Obj :=
  match asNum x with
  | some n => if n < 0 then .error .valueError else .ok (.int (Nat.sqrt n.toNat))
  | none => .error .typeError

/-- `numpy.clip(leaf, low, high)` on the numeric fragment:
`min(max(leaf, low), high)`. -/
def npClip (x lo hi : Obj) : Except Err Obj :=
  match asNum x, asNum lo, asNum hi with
  | some a, some b, some c => .ok (.int (min (max a b) c))
  | _, _, _ => .error .typeError

mutual

/-- Python `==` on the embedded fragment, used by native `dict` construction
to collapse duplicate keys: numbers compare by value (`True == 1`), strings
and tuples structurally.  Distinct `Function` objects compare by identity
(neither `Function` nor its subclasses other than `OpFunction` override
`__eq__` usefully for dict lookup); in this value-level embedding two function
nodes are treated as distinct objects. -/
def pyEq (a b : Obj) : Bool :=
  match asNum a, asNum b with
  | some m, some n => decide (m = n)
  | _, _ =>
    match a, b with
    | .str s, .str t => decide (s = t)
    | .tuple xs, .tuple ys => pyEqList xs ys
    | _, _ => false

def pyEqList (xs ys : List Obj) : Bool :=
  match xs, ys with
  | [], [] => true
  | x :: xs, y :: ys => pyEq x y && pyEqList xs ys
  | _, _ => false

end

mutual

/-- Python hashability for objects of the fragment: numbers and strings are
hashable, tuples are hashable when all their elements are, lists and dicts are
not, and a `Function` object is hashable unless its class derives from
`OpFunction` (which overrides `__eq__` without `__hash__`, so Python 3 sets
`__hash__` to `None` on it and all its subclasses). -/
def hashableObj : Obj → Bool
  | .int _ => true
  | .bool _ => true
  | .str _ => true
  | .tuple xs => hashableList xs
  | .list _ => false
  | .dict _ => false
  | .fn f => !isOpFunction f

def hashableList : List Obj → Bool
  | [] => true
  | x :: xs => hashableObj x && hashableList xs

end

/-- Insertion into a native dict: an existing equal key keeps its position and
original key object but its value is replaced; otherwise the pair is appended. -/
def dictInsert : List (Obj × Obj) → Obj → Obj → List (Obj × Obj)
  | [], k, v => [(k, v)]
  | (k0, v0) :: rest, k, v =>
    if pyEq k0 k then (k0, v) :: rest else (k0, v0) :: dictInsert rest k v

/-- `dict(zip(keys, values))`: inserts the pairs in order, hashing each key
(raising `TypeError` on an unhashable key) and collapsing duplicate keys with
last-write-wins. -/
def dictFromPairs : List (Obj × Obj) → List (Obj × Obj) → Except Err (List (Obj × Obj))
  | acc, [] => .ok acc
  | acc, (k, v) :: rest =>
    if hashableObj k then dictFromPairs (dictInsert acc k v) rest
    else .error .typeError

/-- The tail of `Clip.__call__` after its three operands have been evaluated:
with numpy, `numpy.clip(leaf, low, high)`; without, the
`leaf < low → low; leaf < high → leaf; else high` fallback. -/
def clipCombine (np : Bool) (lo hi x : Obj) : Except Err Obj :=
  if np then npClip x lo hi
  else
    match pyLt x lo with
    | .error e => .error e
    | .ok true => .ok lo
    | .ok false =>
      match pyLt x hi with
      | .error e => .error e
      | .ok true => .ok x
      | .ok false => .ok hi

/-- The tail of `InBetween.__call__` after its three operands have been
evaluated: with numpy, `numpy.logical_and(low <= value, value < high)`
(both comparisons evaluated); without, the chained Python comparison
`low <= value < high` (the second comparison is skipped when the first is
false). -/
def inBetweenCombine (np : Bool) (lo hi x : Obj) : Except Err Obj :=
  if np then
    match pyLe lo x with
    | .error e => .error e
    | .ok b1 =>
      match pyLt x hi with
      | .error e => .error e
      | .ok b2 => .ok (.bool (b1 && b2))
  else
    match pyLe lo x with
    | .error e => .error e
    | .ok true =>
      match pyLt x hi with
      | .error e => .error e
      | .ok b2 => .ok (.bool b2)
    | .ok false => .ok (.bool false)

mutual

/-- `Function.__call__` of every embedded node class, with `np` standing for
the module flag `numpy_available`.  The result pairs the produced value with
the post-call node: `List_`, `Tuple_` and `Dict_` iterate the one-shot
`map(asfunction, ...)` objects created at construction, so a successful (or
short-circuited) call marks them consumed; every other node returns itself
with its children replaced by their own post-call states.  The updates of
nodes reached through a consumed map iterator are dropped: once the owning
iterator is consumed those children are never invoked again through it, so
for the tree-shaped graphs exercised here the dropped updates are
unobservable. -/
def call (np : Bool) : Fn → List Obj → List (String × Obj) → Except Err (Obj × Fn)
  | .Constant v, _, _ => .ok (v, .Constant v)
  | .OpConstant v, _, _ => .ok (v, .OpConstant v)
  | .Identity, args, kw =>
    match kw with
    | [] =>
      match args with
      | [a] => .ok (a, .Identity)
      | _ => .ok (.tuple args, .Identity)
    | _ => .error .typeError
  | .ComposedFunction a b, args, kw =>
    match call np a args kw with
    | .error e => .error e
    | .ok (va, a1) =>
      match call np b [va] [] with
      | .error e => .error e
      | .ok (vb, b1) => .ok (vb, .ComposedFunction a1 b1)
  | .List_ elems consumed, args, kw =>
    if consumed then .ok (.list [], .List_ elems true)
    else
      match callElems np elems args kw with
      | .error e => .error e
      | .ok vs => .ok (.list vs, .List_ elems true)
  | .Tuple_ elems consumed, args, kw =>
    if consumed then .ok (.tuple [], .Tuple_ elems true)
    else
      match callElems np elems args kw with
      | .error e => .error e
      | .ok vs => .ok (.tuple vs, .Tuple_ elems true)
  | .Dict_ keys values consumed, args, kw =>
    (if consumed then .ok (.dict [], .Dict_ keys values true)
     else
      match callElems np keys args kw with
      | .error e => .error e
      | .ok ks =>
        match callElems np values args kw with
        | .error e => .error e
        | .ok vs =>
          match dictFromPairs [] (ks.zip vs) with
          | .error e => .error e
          | .ok d => .ok (.dict d, .Dict_ keys values true))
  | .Sum one two, args, kw =>
    match call np one args kw with
    | .error e => .error e
    | .ok (v1, one1) =>
      match call np two args kw with
      | .error e => .error e
      | .ok (v2, two1) =>
        match objAdd v1 v2 with
        | .error e => .error e
        | .ok v => .ok (v, .Sum one1 two1)
  | .InBetween value low high, args, kw =>
    match call np low args kw with
    | .error e => .error e
    | .ok (lo, low1) =>
      match call np high args kw with
      | .error e => .error e
      | .ok (hi, high1) =>
        match call np value args kw with
        | .error e => .error e
        | .ok (x, value1) =>
          match inBetweenCombine np lo hi x with
          | .error e => .error e
          | .ok r => .ok (r, .InBetween value1 low1 high1)
  | .Clip low high leaf, args, kw =>
    match call np low args kw with
    | .error e => .error e
    | .ok (lo, low1) =>
      match call np high args kw with
      | .error e => .error e
      | .ok (hi, high1) =>
        match call np leaf args kw with
        | .error e => .error e
        | .ok (x, leaf1) =>
          match clipCombine np lo hi x with
          | .error e => .error e
          | .ok r => .ok (r, .Clip low1 high1 leaf1)
  | .Neg, args, kw =>
    match args, kw with
    | [x], [] =>
      match objNeg x with
      | .error e => .error e
      | .ok v => .ok (v, .Neg)
    | _, _ => .error .typeError
  | .Sqrt sargs skw, args, kw =>
    match args, kw with
    | [x], [] =>
      if np then
        match sargs, skw with
        | [], [] =>
          match sqrtInt x with
          | .error e => .error e
          | .ok v => .ok (v, .Sqrt sargs skw)
        | _, _ => .error .typeError
      else
        match sqrtInt x with
        | .error e => .error e
        | .ok v => .ok (v, .Sqrt sargs skw)
    | _, _ => .error .typeError

/-- One step of the list comprehension `[element(*args, **kwargs) for element
in self._elements]`: the lazy map applies `asfunction` to the stored raw
element and invokes the resulting Function.  A raw non-Function element is
wrapped as a fresh `Constant`, whose call just returns the element. -/
def callElem (np : Bool) : Obj → List Obj → List (String × Obj) → Except Err Obj
  | .fn f, args, kw =>
    match call np f args kw with
    | .error e => .error e
    | .ok (v, _) => .ok v
  | v, _, _ => .ok v

/-- The full list comprehension over the stored raw elements, in order. -/
def callElems (np : Bool) : List Obj → List Obj → List (String × Obj) → Except Err (List Obj)
  | [], _, _ => .ok []
  | e :: rest, args, kw =>
    match callElem np e args kw with
    | .error e1 => .error e1
    | .ok v =>
      match callElems np rest args kw with
      | .error e1 => .error e1
      | .ok vs => .ok (v :: vs)

end

/-- The value produced by invoking a node, discarding the post-call state. -/
def evalV (np : Bool) (f : Fn) (args : List Obj) (kw : List (String × Obj)) : Except Err Obj :=
  match call np f args kw with
  | .error e => .error e
  | .ok (v, _) => .ok v

/-- `ComposedFunction.__init__(a, b)`: both operands are passed through
`asfunction`. -/
def ComposedFunction_mk (a b : Obj) : Fn :=
  .ComposedFunction (asfunction a) (asfunction b)

/-- `OpFunction.__or__` (piping): `ComposedFunction(a=self, b=other)`. -/
def OpFunction_or (self : Fn) (other : Obj) : Fn :=
  ComposedFunction_mk (.fn self) other

/-- `Sum.__init__(one, two)`: both operands are passed through `asfunction`. -/
def Sum_mk (one two : Obj) : Fn :=
  .Sum (asfunction one) (asfunction two)

/-- `InBetween.__init__(value, low, high)`: all three operands are passed
through `asfunction`. -/
def InBetween_mk (value low high : Obj) : Fn :=
  .InBetween (asfunction value) (asfunction low) (asfunction high)

/-- `Clip.__init__(low, high, leaf)`: all three operands are passed through
`asfunction`. -/
def Clip_mk (low high leaf : Obj) : Fn :=
  .Clip (asfunction low) (asfunction high) (asfunction leaf)

/-- `Neg(*ctorArgs, **ctorKwargs)`: `Neg.__init__` is declared with no
parameter besides `self`, so passing any constructor argument raises
`TypeError: __init__() takes 1 positional argument but more were given`. -/
def Neg_new (ctorArgs : List Obj) (ctorKwargs : List (String × Obj)) : Except Err Fn :=
  match ctorArgs, ctorKwargs with
  | [], [] => .ok .Neg
  | _, _ => .error .typeError

/-- `OpFunction.__sub__`: `other = asfunction(other); return Sum(self,
Neg(other))` — the negated operand is built by passing `other` to the `Neg`
constructor. -/
def OpFunction_sub (self : Fn) (other : Obj) : Except Err Fn :=
  match Neg_new [.fn (asfunction other)] [] with
  | .error e => .error e
  | .ok n => .ok (Sum_mk (.fn self) (.fn n))

mutual

/-- `op.compound`: replaces lists, tuples and dicts in `obj` by `_List`,
`_Tuple` and `_Dict` nodes over recursively compounded children, and passes
any other object through `asfunction`.  The dict case first compounds all keys
and all values and then builds the native `dict(zip(keys, values))`, which
hashes each compounded key: a key that compounds to an `OpFunction` node is
unhashable, and the construction raises `TypeError`.  The compounded keys are
distinct freshly built (or distinct input) objects hashing by identity, so no
two entries collapse and the zipped pairs are kept in order. -/
def compound : Obj → Except Err Fn
  | .list xs =>
    match compoundList xs with
    | .error e => .error e
    | .ok fs => .ok (.List_ (fs.map Obj.fn) false)
  | .tuple xs =>
    match compoundList xs with
    | .error e => .error e
    | .ok fs => .ok (.Tuple_ (fs.map Obj.fn) false)
  | .dict entries =>
    match compoundPairs entries with
    | .error e => .error e
    | .ok prs =>
      if prs.all (fun p => !isOpFunction p.1) then
        .ok (.Dict_ (prs.map fun p => Obj.fn p.1) (prs.map fun p => Obj.fn p.2) false)
      else .error .typeError
  | v => .ok (asfunction v)

def compoundList : List Obj → Except Err (List Fn)
  | [] => .ok []
  | e :: rest =>
    match compound e with
    | .error e1 => .error e1
    | .ok f =>
      match compoundList rest with
      | .error e1 => .error e1
      | .ok fs => .ok (f :: fs)

def compoundPairs : List (Obj × Obj) → Except Err (List (Fn × Fn))
  | [] => .ok []
  | (k, v) :: rest =>
    match compound k with
    | .error e1 => .error e1
    | .ok fk =>
      match compound v with
      | .error e1 => .error e1
      | .ok fv =>
        match compoundPairs rest with
        | .error e1 => .error e1
        | .ok fps => .ok ((fk, fv) :: fps)

end

/-- A mapping key lifts to a hashable node exactly when it is neither an
aggregate literal (which would lift to an `_List`/`_Tuple`/`_Dict` node, all
`OpFunction` subclasses) nor an `OpFunction` node already; a plain value
lifts to a hashable plain `Constant`. -/
def keyOk : Obj → Bool
  | .fn f => !isOpFunction f
  | .list _ => false
  | .tuple _ => false
  | .dict _ => false
  | _ => true

mutual

/-- Sufficient condition for `compound` to succeed: every mapping key at any
nesting depth satisfies `keyOk`. -/
def constructionOk : Obj → Bool
  | .list xs => constructionOkList xs
  | .tuple xs => constructionOkList xs
  | .dict entries => constructionOkPairs entries
  | _ => true

def constructionOkList : List Obj → Bool
  | [] => true
  | e :: rest => constructionOk e && constructionOkList rest

def constructionOkPairs : List (Obj × Obj) → Bool
  | [] => true
  | (k, v) :: rest => keyOk k && constructionOk v && constructionOkPairs rest

end

/-- C1: `OpFunction.__sub__` never returns a node: for every operator-algebra
node `a` and every operand `b`, evaluating `a - b` raises `TypeError` at
construction, because the expression `Sum(self, Neg(other))` passes the
converted operand to the `Neg` constructor, whose `__init__` accepts no
operand.  This refutes the claim that `a - b` succeeds and returns a binary
`Sum` node of `a` and the negation of `b`. -/
theorem c1_sub_always_raises (a : Fn) (b : Obj) :
    OpFunction_sub a b = .error .typeError := rfl

/-- C2: the node built by lifting the plain list `[3, 4]` is mutated by its
first evaluation: the first call returns `[3, 4]`, but the second call on the
post-call node returns the empty list, because `_List.__init__` stores
`map(asfunction, elements)`, a one-shot iterator that the first
`__call__` exhausts.  This refutes the claim that evaluating the lifted node
twice with the same arguments returns the same sequence both times. -/
theorem c2_second_evaluation_empty :
    ∃ t1 t2 t3 : Fn,
      compound (.list [.int 3, .int 4]) = .ok t1 ∧
      call false t1 [] [] = .ok (.list [.int 3, .int 4], t2) ∧
      call false t2 [] [] = .ok (.list [], t3) := by
  refine ⟨.List_ [.fn (.Constant (.int 3)), .fn (.Constant (.int 4))] false,
          .List_ [.fn (.Constant (.int 3)), .fn (.Constant (.int 4))] true,
          .List_ [.fn (.Constant (.int 3)), .fn (.Constant (.int 4))] true, ?_, ?_, ?_⟩ <;>
    simp [compound, compoundList, call, callElems, callElem, asfunction]

/-- C3 counterexample: lifting the dictionary `{OpConstant(3): 4}` — a
mapping whose key is itself a node — raises `TypeError` at construction:
`compound` builds the native `dict(zip(keys, values))`, which must hash the
key node, and `OpFunction` instances are unhashable because the class
overrides `__eq__` without `__hash__`.  This refutes the claim that
construction never fails. -/
theorem c3_node_key_raises :
    compound (.dict [(.fn (.OpConstant (.int 3)), .int 4)]) = .error .typeError := by
  simp [compound, compoundPairs, asfunction, isOpFunction]

/-- C4 counterexample: the tree `Sum(Identity(), Identity())` invoked with the
keyword argument `x=2` raises `TypeError` instead of delivering the keyword
argument to the leaves: `Identity.__call__(self, *args)` accepts no keyword
arguments.  This refutes the claim that a tree whose leaf is an `Identity`
node can be invoked with keyword arguments with the leaf receiving them. -/
theorem c4_identity_rejects_keywords :
    call false (.Sum .Identity .Identity) [.int 1] [("x", .int 2)] = .error .typeError := by
  simp [call]

/-- A successful `evalV` comes from a successful `call` with some post-call
node. -/
theorem call_eq_of_evalV {np : Bool} {f : Fn} {args : List Obj}
    {kw : List (String × Obj)} {v : Obj} (h : evalV np f args kw = .ok v) :
    ∃ f1 : Fn, call np f args kw = .ok (v, f1) := by
  unfold evalV at h
  cases hc : call np f args kw with
  | error e => rw [hc] at h; exact absurd h (by simp)
  | ok p =>
    obtain ⟨w, f1⟩ := p
    rw [hc] at h
    simp only [Except.ok.injEq] at h
    subst h
    exact ⟨f1, rfl⟩

/-- `ComposedFunction.__call__` produces `b(a(*args, **kwargs))`: the value of
the right node applied to the value of the left node as its sole positional
argument. -/
theorem evalV_Composed (np : Bool) (a b : Fn) (args : List Obj)
    (kw : List (String × Obj)) :
    evalV np (.ComposedFunction a b) args kw =
      match evalV np a args kw with
      | .error e => .error e
      | .ok v => evalV np b [v] [] := by
  unfold evalV
  simp only [call]
  cases h1 : call np a args kw with
  | error e => rfl
  | ok p =>
    obtain ⟨v1, a1⟩ := p
    cases h2 : call np b [v1] [] with
    | error e => simp [h2]
    | ok q => obtain ⟨v2, b1⟩ := q; simp [h2]

/-- `Sum.__call__` adds the values of its two children, each invoked with the
unmodified call arguments. -/
theorem evalV_Sum (np : Bool) (a b : Fn) (args : List Obj)
    (kw : List (String × Obj)) :
    evalV np (.Sum a b) args kw =
      match evalV np a args kw with
      | .error e => .error e
      | .ok v1 =>
        match evalV np b args kw with
        | .error e => .error e
        | .ok v2 => objAdd v1 v2 := by
  unfold evalV
  simp only [call]
  cases h1 : call np a args kw with
  | error e => rfl
  | ok p =>
    obtain ⟨v1, a1⟩ := p
    cases h2 : call np b args kw with
    | error e => simp [h2]
    | ok q =>
      obtain ⟨v2, b1⟩ := q
      cases h3 : objAdd v1 v2 <;> simp [h2, h3]

/-- `Clip.__call__` evaluates `low`, `high`, `leaf` in this order with the
unmodified call arguments, then combines the three values. -/
theorem evalV_Clip (np : Bool) (low high leaf : Fn) (args : List Obj)
    (kw : List (String × Obj)) :
    evalV np (.Clip low high leaf) args kw =
      match evalV np low args kw with
      | .error e => .error e
      | .ok lo =>
        match evalV np high args kw with
        | .error e => .error e
        | .ok hi =>
          match evalV np leaf args kw with
          | .error e => .error e
          | .ok x => clipCombine np lo hi x := by
  unfold evalV
  simp only [call]
  cases h1 : call np low args kw with
  | error e => rfl
  | ok p =>
    obtain ⟨lo, low1⟩ := p
    cases h2 : call np high args kw with
    | error e => simp [h2]
    | ok q =>
      obtain ⟨hi, high1⟩ := q
      cases h3 : call np leaf args kw with
      | error e => simp [h2, h3]
      | ok r =>
        obtain ⟨x, leaf1⟩ := r
        cases h4 : clipCombine np lo hi x <;> simp [h2, h3, h4]

/-- `InBetween.__call__` evaluates `low`, `high`, `value` in this order with
the unmodified call arguments, then combines the three values. -/
theorem evalV_InBetween (np : Bool) (value low high : Fn) (args : List Obj)
    (kw : List (String × Obj)) :
    evalV np (.InBetween value low high) args kw =
      match evalV np low args kw with
      | .error e => .error e
      | .ok lo =>
        match evalV np high args kw with
        | .error e => .error e
        | .ok hi =>
          match evalV np value args kw with
          | .error e => .error e
          | .ok x => inBetweenCombine np lo hi x := by
  unfold evalV
  simp only [call]
  cases h1 : call np low args kw with
  | error e => rfl
  | ok p =>
    obtain ⟨lo, low1⟩ := p
    cases h2 : call np high args kw with
    | error e => simp [h2]
    | ok q =>
      obtain ⟨hi, high1⟩ := q
      cases h3 : call np value args kw with
      | error e => simp [h2, h3]
      | ok r =>
        obtain ⟨x, value1⟩ := r
        cases h4 : inBetweenCombine np lo hi x <;> simp [h2, h3, h4]

/-- C5: piping composes left-to-right: for all nodes `a`, `b` and all call
arguments, `(a | b)(args)` evaluates `a` on the arguments and feeds the result
to `b` as its sole input, i.e. it equals `b(a(args))`; in particular
`(OpConstant(4) | Sqrt())()` returns `2` (with and without numpy). -/
theorem c5_pipe_order :
    (∀ (np : Bool) (a b : Fn) (args : List Obj) (kw : List (String × Obj)),
      evalV np (OpFunction_or a (.fn b)) args kw =
        match evalV np a args kw with
        | .error e => .error e
        | .ok v => evalV np b [v] []) ∧
    evalV true (OpFunction_or (.OpConstant (.int 4)) (.fn (.Sqrt [] []))) [] [] =
      .ok (.int 2) ∧
    evalV false (OpFunction_or (.OpConstant (.int 4)) (.fn (.Sqrt [] []))) [] [] =
      .ok (.int 2) := by
  refine ⟨fun np a b args kw => evalV_Composed np a b args kw, ?_, ?_⟩ <;>
    simp [evalV, OpFunction_or, ComposedFunction_mk, asfunction, call, sqrtInt, asNum] <;>
    norm_num [show (4 : ℕ) = 2 * 2 from rfl, Nat.sqrt_eq]

/-- C6: without numpy, `Clip(low, high, leaf)` evaluates its three operands
and returns `low` when `leaf < low`, `leaf` when `leaf < high`, and `high`
otherwise; with low 0 and high 10 this gives 0 for leaf value -5, 10 for leaf
value 15, and 5 for leaf value 5. -/
theorem c6_clip_fallback :
    (∀ (args : List Obj) (kw : List (String × Obj)) (fl fh fx : Fn) (l h x : Int),
      evalV false fl args kw = .ok (.int l) →
      evalV false fh args kw = .ok (.int h) →
      evalV false fx args kw = .ok (.int x) →
      evalV false (.Clip fl fh fx) args kw =
        .ok (.int (if x < l then l else if x < h then x else h))) ∧
    evalV false (Clip_mk (.int 0) (.int 10) (.fn (.Constant (.int (-5))))) [] [] =
      .ok (.int 0) ∧
    evalV false (Clip_mk (.int 0) (.int 10) (.fn (.Constant (.int 15)))) [] [] =
      .ok (.int 10) ∧
    evalV false (Clip_mk (.int 0) (.int 10) (.fn (.Constant (.int 5)))) [] [] =
      .ok (.int 5) := by
  refine ⟨fun args kw fl fh fx l h x h1 h2 h3 => ?_, ?_, ?_, ?_⟩
  · rw [evalV_Clip, h1, h2, h3]
    by_cases hxl : x < l <;> by_cases hxh : x < h <;>
      simp [clipCombine, pyLt, asNum, hxl, hxh]
  all_goals
    simp [evalV, Clip_mk, asfunction, call, clipCombine, pyLt, asNum]

/-- C6 witness: the general clipping statement applied to three `Constant`
operands 0, 10 and -5 with no call arguments. -/
theorem c6_clip_fallback_witness :
    evalV false (.Clip (.Constant (.int 0)) (.Constant (.int 10)) (.Constant (.int (-5)))) [] [] =
      .ok (.int 0) := by
  have h := c6_clip_fallback.1 [] [] (.Constant (.int 0)) (.Constant (.int 10))
    (.Constant (.int (-5))) 0 10 (-5) (by simp [evalV, call]) (by simp [evalV, call])
    (by simp [evalV, call])
  simpa using h

/-- C7: `InBetween(value, low, high)` evaluates all three operands and
returns `low <= value AND value < high` — lower bound inclusive, upper bound
exclusive: with numpy the two comparisons are joined by
`numpy.logical_and`, without numpy the chained comparison gives the same
boolean; `InBetween(Constant(5), 5, 10)()` is true and
`InBetween(Constant(10), 5, 10)()` is false, with and without numpy. -/
theorem c7_inbetween_bounds :
    (∀ (np : Bool) (args : List Obj) (kw : List (String × Obj))
      (fv fl fh : Fn) (x l h : Int),
      evalV np fv args kw = .ok (.int x) →
      evalV np fl args kw = .ok (.int l) →
      evalV np fh args kw = .ok (.int h) →
      evalV np (.InBetween fv fl fh) args kw =
        .ok (.bool (decide (l ≤ x) && decide (x < h)))) ∧
    (∀ np : Bool,
      evalV np (InBetween_mk (.fn (.Constant (.int 5))) (.int 5) (.int 10)) [] [] =
        .ok (.bool true)) ∧
    (∀ np : Bool,
      evalV np (InBetween_mk (.fn (.Constant (.int 10))) (.int 5) (.int 10)) [] [] =
        .ok (.bool false)) := by
  refine ⟨fun np args kw fv fl fh x l h h1 h2 h3 => ?_, fun np => ?_, fun np => ?_⟩
  · rw [evalV_InBetween, h2, h3, h1]
    cases np
    · by_cases hlx : l ≤ x <;> simp [inBetweenCombine, pyLe, pyLt, asNum, hlx]
    · simp [inBetweenCombine, pyLe, pyLt, asNum]
  all_goals
    cases np <;>
      simp [evalV, InBetween_mk, asfunction, call, inBetweenCombine, pyLe, pyLt, asNum]

/-- C7 witness: the general bounds statement applied to three `Constant`
operands 7, 5 and 10 with no call arguments. -/
theorem c7_inbetween_bounds_witness :
    evalV true (.InBetween (.Constant (.int 7)) (.Constant (.int 5)) (.Constant (.int 10))) [] [] =
      .ok (.bool true) := by
  have h := c7_inbetween_bounds.1 true [] [] (.Constant (.int 7)) (.Constant (.int 5))
    (.Constant (.int 10)) 7 5 10 (by simp [evalV, call]) (by simp [evalV, call])
    (by simp [evalV, call])
  simpa using h

/-- The values of a list of nodes, each invoked once, in order, with the same
arguments (the contents of the list comprehension in `_List.__call__` on a
fresh node). -/
def evalEach (np : Bool) : List Fn → List Obj → List (String × Obj) → Except Err (List Obj)
  | [], _, _ => .ok []
  | f :: rest, args, kw =>
    match evalV np f args kw with
    | .error e => .error e
    | .ok v =>
      match evalEach np rest args kw with
      | .error e => .error e
      | .ok vs => .ok (v :: vs)

/-- Iterating the stored lazy `map(asfunction, elements)` over elements that
are already Function objects invokes exactly those functions in order. -/
theorem callElems_map_fn (np : Bool) (fs : List Fn) (args : List Obj)
    (kw : List (String × Obj)) :
    callElems np (fs.map Obj.fn) args kw = evalEach np fs args kw := by
  induction fs with
  | nil => simp [callElems, evalEach]
  | cons f rest ih =>
    simp only [List.map_cons, callElems, callElem, evalEach, evalV]
    cases h1 : call np f args kw with
    | error e => rfl
    | ok p =>
      obtain ⟨v, f1⟩ := p
      rw [ih]

/-- C8: lifting an ordered sequence literal produces a composite `_List` node
with one converted child per element, and (first) evaluation returns the list
of the children's values in the same order; lifting
`[Constant(3), Constant(4)]` and evaluating with no arguments returns
`[3, 4]`. -/
theorem c8_list_lifting :
    (∀ (np : Bool) (xs : List Obj) (fs : List Fn) (vs : List Obj)
      (args : List Obj) (kw : List (String × Obj)),
      compoundList xs = .ok fs →
      evalEach np fs args kw = .ok vs →
      ∃ t1 : Fn, compound (.list xs) = .ok (.List_ (fs.map Obj.fn) false) ∧
        call np (.List_ (fs.map Obj.fn) false) args kw = .ok (.list vs, t1)) ∧
    (∃ t t1 : Fn,
      compound (.list [.fn (.Constant (.int 3)), .fn (.Constant (.int 4))]) = .ok t ∧
      call false t [] [] = .ok (.list [.int 3, .int 4], t1)) := by
  constructor
  · intro np xs fs vs args kw hcl hev
    refine ⟨.List_ (fs.map Obj.fn) true, ?_, ?_⟩
    · simp [compound, hcl]
    · simp [call, callElems_map_fn, hev]
  · refine ⟨.List_ [.fn (.Constant (.int 3)), .fn (.Constant (.int 4))] false,
      .List_ [.fn (.Constant (.int 3)), .fn (.Constant (.int 4))] true, ?_, ?_⟩ <;>
      simp [compound, compoundList, asfunction, call, callElems, callElem]

/-- C8 witness: the general lifting statement applied to the singleton list
`[7]`, whose single element lifts to `Constant(7)`. -/
theorem c8_list_lifting_witness :
    ∃ t1 : Fn,
      compound (.list [.int 7]) = .ok (.List_ [.fn (.Constant (.int 7))] false) ∧
      call false (.List_ [.fn (.Constant (.int 7))] false) [] [] =
        .ok (.list [.int 7], t1) := by
  have h := c8_list_lifting.1 false [.int 7] [.Constant (.int 7)] [.int 7] [] []
    (by simp [compoundList, compound, asfunction]) (by simp [evalEach, evalV, call])
  simpa using h

/-- C10 counterexample: piping the node `Neg()` into the plain value `7` and
invoking the result with no arguments does not return `7`: the left operand is
still evaluated first, `Neg()` called with zero runtime arguments raises
`TypeError`, and the error propagates.  This refutes the claim that
`(f | v)(args)` returns `v` for every node `f`. -/
theorem c10_left_error_propagates :
    evalV false (OpFunction_or .Neg (.int 7)) [] [] = .error .typeError ∧
    (Except.error Err.typeError : Except Err Obj) ≠ .ok (.int 7) := by
  constructor
  · simp [evalV, OpFunction_or, ComposedFunction_mk, asfunction, call]
  · simp

/-- C9: conversion to a node is idempotent: `asfunction` returns an object
that is already a Function unchanged (the same object, not a copy), so
`asfunction(asfunction(x))` is the very value `asfunction(x)` for every `x`;
any non-Function value is wrapped as a `Constant`. -/
theorem c9_asfunction_idempotent :
    (∀ f : Fn, asfunction (.fn f) = f) ∧
    (∀ v : Obj, asfunction (.fn (asfunction v)) = asfunction v) ∧
    (∀ v : Obj, (∀ f : Fn, v ≠ .fn f) → asfunction v = .Constant v) := by
  refine ⟨fun f => rfl, fun v => ?_, fun v h => ?_⟩
  · cases v <;> rfl
  · cases v <;> first | rfl | exact absurd rfl (h _)

/-- C9 witness: the wrapping clause applied to the plain value 5, which is
not a Function. -/
theorem c9_asfunction_idempotent_witness :
    (∀ f : Fn, (Obj.int 5) ≠ .fn f) ∧ asfunction (.int 5) = .Constant (.int 5) :=
  ⟨fun _ => nofun, c9_asfunction_idempotent.2.2 (.int 5) (fun _ => nofun)⟩

/-- `asfunction` wraps every non-Function object as a `Constant`. -/
theorem asfunction_of_not_fn {v : Obj} (h : ∀ f : Fn, v ≠ .fn f) :
    asfunction v = .Constant v := by
  cases v <;> first | rfl | exact absurd rfl (h _)

/-- C10 (amended): piping a node into a plain (non-Function) value yields
that value whenever the left node's own evaluation succeeds:
`ComposedFunction.__init__` converts the plain right operand to
`Constant(v)`, which discards its single input; if the left node raises, the
error propagates instead. -/
theorem c10_pipe_into_plain_value :
    ∀ (np : Bool) (f : Fn) (v : Obj) (args : List Obj) (kw : List (String × Obj)),
      (∀ g : Fn, v ≠ .fn g) →
      ∀ w : Obj, evalV np f args kw = .ok w →
      evalV np (OpFunction_or f v) args kw = .ok v := by
  intro np f v args kw hv w hw
  unfold OpFunction_or ComposedFunction_mk
  rw [asfunction_of_not_fn hv]
  rw [show asfunction (.fn f) = f from rfl]
  rw [evalV_Composed, hw]
  simp [evalV, call]

/-- C10 witness: piping `Constant(1)` into the plain value 7 and invoking
with no arguments returns 7. -/
theorem c10_pipe_into_plain_value_witness :
    evalV false (OpFunction_or (.Constant (.int 1)) (.int 7)) [] [] = .ok (.int 7) :=
  c10_pipe_into_plain_value false (.Constant (.int 1)) (.int 7) [] []
    (fun _ => nofun) (.int 1) (by simp [evalV, call])

/-- The value `Identity.__call__` produces from the positional arguments: a
single argument is unwrapped, otherwise the argument tuple is returned. -/
def identityValue : List Obj → Obj
  | [a] => a
  | args => .tuple args

/-- Replaces every `Identity` leaf of a tree of argument-forwarding nodes by
`Constant v`. -/
def substIdentity (v : Obj) : Fn → Fn
  | .Identity => .Constant v
  | .Sum a b => .Sum (substIdentity v a) (substIdentity v b)
  | .Clip a b c => .Clip (substIdentity v a) (substIdentity v b) (substIdentity v c)
  | .InBetween a b c =>
    .InBetween (substIdentity v a) (substIdentity v b) (substIdentity v c)
  | t => t

/-- Trees built from the nodes that forward their call arguments unmodified
to every child (`Sum`, `Clip`, `InBetween`) over `Constant`, `OpConstant`
and `Identity` leaves. -/
inductive ForwardingTree : Fn → Prop where
  | constant (v : Obj) : ForwardingTree (.Constant v)
  | opConstant (v : Obj) : ForwardingTree (.OpConstant v)
  | identity : ForwardingTree .Identity
  | sum {a b : Fn} : ForwardingTree a → ForwardingTree b → ForwardingTree (.Sum a b)
  | clip {a b c : Fn} : ForwardingTree a → ForwardingTree b → ForwardingTree c →
      ForwardingTree (.Clip a b c)
  | inBetween {a b c : Fn} : ForwardingTree a → ForwardingTree b → ForwardingTree c →
      ForwardingTree (.InBetween a b c)

/-- C4 (amended): the binary and ternary forwarding nodes pass the call
arguments unmodified down to every leaf: in any forwarding tree invoked with
positional arguments and no keyword arguments, every `Identity` leaf behaves
exactly like a constant holding the invocation's own argument value — the
arguments reach the leaves unchanged.  (Keyword arguments cannot be part of
this statement: an `Identity` leaf raises `TypeError` on them, see the
counterexample.) -/
theorem c4_arguments_reach_leaves :
    ∀ (np : Bool) (t : Fn) (args : List Obj), ForwardingTree t →
      evalV np t args [] = evalV np (substIdentity (identityValue args) t) args [] := by
  intro np t args h
  induction h with
  | constant v => rfl
  | opConstant v => rfl
  | identity =>
    simp only [substIdentity]
    cases args with
    | nil => simp [evalV, call, identityValue]
    | cons a rest => cases rest <;> simp [evalV, call, identityValue]
  | sum ha hb iha ihb =>
    simp only [substIdentity]
    rw [evalV_Sum, evalV_Sum, iha, ihb]
  | clip ha hb hc iha ihb ihc =>
    simp only [substIdentity]
    rw [evalV_Clip, evalV_Clip, iha, ihb, ihc]
  | inBetween ha hb hc iha ihb ihc =>
    simp only [substIdentity]
    rw [evalV_InBetween, evalV_InBetween, iha, ihb, ihc]

/-- C4 witness: the forwarding statement applied to `Sum(Identity(),
Constant(1))` invoked with the single positional argument 5: the `Identity`
leaf receives exactly the argument 5. -/
theorem c4_arguments_reach_leaves_witness :
    evalV false (.Sum .Identity (.Constant (.int 1))) [.int 5] [] =
      evalV false (.Sum (.Constant (.int 5)) (.Constant (.int 1))) [.int 5] [] := by
  have h := c4_arguments_reach_leaves false (.Sum .Identity (.Constant (.int 1)))
    [.int 5] (ForwardingTree.sum ForwardingTree.identity (ForwardingTree.constant (.int 1)))
  simpa [substIdentity, identityValue] using h

/-- A key satisfying `keyOk` compounds successfully to a hashable
(non-`OpFunction`) node. -/
theorem compound_of_keyOk (k : Obj) (hk : keyOk k = true) :
    ∃ fk : Fn, compound k = .ok fk ∧ isOpFunction fk = false := by
  cases k with
  | list xs => simp [keyOk] at hk
  | tuple xs => simp [keyOk] at hk
  | dict es => simp [keyOk] at hk
  | fn f =>
    refine ⟨f, by simp [compound, asfunction], ?_⟩
    simpa [keyOk] using hk
  | int m => exact ⟨.Constant (.int m), by simp [compound, asfunction], rfl⟩
  | bool b => exact ⟨.Constant (.bool b), by simp [compound, asfunction], rfl⟩
  | str s => exact ⟨.Constant (.str s), by simp [compound, asfunction], rfl⟩

/-- Fuel-indexed success of `compound`, `compoundList` and `compoundPairs`
on inputs all of whose mapping keys lift to hashable nodes. -/
theorem compound_ok_fuel : ∀ n : Nat,
    (∀ v : Obj, sizeOf v < n → constructionOk v = true →
      ∃ f : Fn, compound v = .ok f) ∧
    (∀ xs : List Obj, sizeOf xs < n → constructionOkList xs = true →
      ∃ fs : List Fn, compoundList xs = .ok fs) ∧
    (∀ prs : List (Obj × Obj), sizeOf prs < n → constructionOkPairs prs = true →
      ∃ fps : List (Fn × Fn), compoundPairs prs = .ok fps ∧
        fps.all (fun p => !isOpFunction p.1) = true) := by
  intro n
  induction n with
  | zero => refine ⟨?_, ?_, ?_⟩ <;> intro v hv _ <;> exact absurd hv (by omega)
  | succ n ih =>
    obtain ⟨ihv, ihl, ihp⟩ := ih
    refine ⟨?_, ?_, ?_⟩
    · intro v hv hok
      cases v with
      | int m => exact ⟨.Constant (.int m), by simp [compound, asfunction]⟩
      | bool b => exact ⟨.Constant (.bool b), by simp [compound, asfunction]⟩
      | str s => exact ⟨.Constant (.str s), by simp [compound, asfunction]⟩
      | fn f => exact ⟨f, by simp [compound, asfunction]⟩
      | list xs =>
        simp only [constructionOk] at hok
        have hs : sizeOf xs < n := by simp at hv; omega
        obtain ⟨fs, hfs⟩ := ihl xs hs hok
        exact ⟨.List_ (fs.map Obj.fn) false, by simp [compound, hfs]⟩
      | tuple xs =>
        simp only [constructionOk] at hok
        have hs : sizeOf xs < n := by simp at hv; omega
        obtain ⟨fs, hfs⟩ := ihl xs hs hok
        exact ⟨.Tuple_ (fs.map Obj.fn) false, by simp [compound, hfs]⟩
      | dict es =>
        simp only [constructionOk] at hok
        have hs : sizeOf es < n := by simp at hv; omega
        obtain ⟨fps, hfps, hall⟩ := ihp es hs hok
        exact ⟨.Dict_ (fps.map fun p => Obj.fn p.1) (fps.map fun p => Obj.fn p.2) false,
          by simp [compound, hfps, hall]⟩
    · intro xs hxs hok
      cases xs with
      | nil => exact ⟨[], by simp [compoundList]⟩
      | cons e rest =>
        simp only [constructionOkList, Bool.and_eq_true] at hok
        obtain ⟨h1, h2⟩ := hok
        have he : sizeOf e < n := by simp at hxs; omega
        have hr : sizeOf rest < n := by simp at hxs; omega
        obtain ⟨f, hf⟩ := ihv e he h1
        obtain ⟨fs, hfs⟩ := ihl rest hr h2
        exact ⟨f :: fs, by simp [compoundList, hf, hfs]⟩
    · intro prs hprs hok
      cases prs with
      | nil => exact ⟨[], by simp [compoundPairs], rfl⟩
      | cons p rest =>
        obtain ⟨k, v⟩ := p
        simp only [constructionOkPairs, Bool.and_eq_true] at hok
        obtain ⟨⟨hk, hv2⟩, hrest⟩ := hok
        have hvn : sizeOf v < n := by simp at hprs; omega
        have hrn : sizeOf rest < n := by simp at hprs; omega
        obtain ⟨fk, hfk, hkop⟩ := compound_of_keyOk k hk
        obtain ⟨fv, hfv⟩ := ihv v hvn hv2
        obtain ⟨fps, hfps, hall⟩ := ihp rest hrn hrest
        refine ⟨(fk, fv) :: fps, by simp [compoundPairs, hfk, hfv, hfps], ?_⟩
        simp [hkop, hall]

/-- C3 (amended): `asfunction` never fails (it is total), and `compound`
succeeds on every value all of whose mapping keys — at any nesting depth —
lift to hashable nodes (any plain non-aggregate value, or a node that is not
an `OpFunction`); a mapping whose key lifts to an `OpFunction` node raises
`TypeError` at construction, because such nodes override `==` and are
unhashable. -/
theorem c3_construction_succeeds_without_node_keys :
    ∀ v : Obj, constructionOk v = true → ∃ f : Fn, compound v = .ok f := fun v h =>
  (compound_ok_fuel (sizeOf v + 1)).1 v (by omega) h

/-- C3 witness: the lifting statement applied to the mapping `{1: 2}`, whose
key lifts to a hashable plain `Constant`. -/
theorem c3_construction_succeeds_witness :
    constructionOk (.dict [(.int 1, .int 2)]) = true ∧
      ∃ f : Fn, compound (.dict [(.int 1, .int 2)]) = .ok f :=
  ⟨by simp [constructionOk, constructionOkPairs, keyOk],
    c3_construction_succeeds_without_node_keys (.dict [(.int 1, .int 2)])
      (by simp [constructionOk, constructionOkPairs, keyOk])⟩

end FF
